import Mathlib

/-!
Shallow embedding of the todo-app repository: the Express REST backend
(routes in `src/backend/api` and the route files for todos/stats, with the
Zod schemas of `todo.schema.ts`), the frontend transport client
(`api/client.ts`, here `fetchApi`), the global error handler
(`middleware/errorHandler.ts`), and the React Query optimistic-mutation
hooks (`useTodos.ts` as included in the distributed `App.tsx`) together
with the query-key scheme of `lib/queryClient.ts`.

Machine integers are modelled as `Nat`/`Int`; timestamps as `Nat` clock
values; SQL `NULL`able columns as `Option`; fallible handlers return the
new store paired with an `Except`.
-/

/-- Priority enumeration: `z.enum(['low','medium','high'])`. -/
inductive Priority where
  | low
  | medium
  | high
deriving DecidableEq, Repr

/-- A row of `todo_app.todos` (equally the frontend `Todo` record):
`id` uuid, `title` text, `description` text NULL, `completed` bool,
`priority` enum, `due_date` timestamp NULL, `created_at`/`updated_at`
timestamps (modelled as `Nat` clock readings). -/
structure TodoRow where
  id : String
  title : String
  description : Option String
  completed : Bool
  priority : Priority
  due_date : Option Nat
  created_at : Nat
  updated_at : Nat
deriving DecidableEq, Repr

/-- `pat.isPrefixOf l` specialised check used by the substring model,
written out with `decide` so it unfolds computably. -/
def charsHavePrefix : List Char → List Char → Bool
  | [], _ => true
  | _ :: _, [] => false
  | p :: ps, c :: cs => decide (p = c) && charsHavePrefix ps cs

/-- Substring occurrence on character lists (`String.includes` /
the `%pat%` pattern of `LIKE` for wildcard-free `pat`). -/
def hasSub (pat : List Char) : List Char → Bool
  | [] => pat.isEmpty
  | c :: t => charsHavePrefix pat (c :: t) || hasSub pat t

/-- JS `haystack.includes(pat)`: case-sensitive substring test. -/
def strContainsSub (hay pat : String) : Bool :=
  hasSub pat.toList hay.toList

/-- Lower-cased character list of a string. -/
def lowerChars (s : String) : List Char :=
  s.toList.map Char.toLower

/-- Postgres `hay ILIKE '%pat%'` for a wildcard-free `pat`:
case-insensitive substring match. -/
def strContainsCI (hay pat : String) : Bool :=
  hasSub (lowerChars pat) (lowerChars hay)

/-- An HTTP-level error as produced by `createError(message, statusCode)`. -/
structure HErr where
  status : Nat
  message : String
deriving DecidableEq, Repr

/-- Parsed `UpdateTodoInput` (output of `updateTodoSchema`): every field
optional; `description` and `due_date` additionally nullable. -/
structure UpdatePatch where
  title : Option String := none
  description : Option (Option String) := none
  priority : Option Priority := none
  due_date : Option (Option Nat) := none
  completed : Option Bool := none
deriving DecidableEq, Repr

/-- Number of recognized fields present in the patch — the length of the
`updates` array the PATCH handler builds before appending `updated_at`. -/
def patchFieldCount (p : UpdatePatch) : Nat :=
  (if p.title.isSome then 1 else 0) +
  (if p.description.isSome then 1 else 0) +
  (if p.priority.isSome then 1 else 0) +
  (if p.due_date.isSome then 1 else 0) +
  (if p.completed.isSome then 1 else 0)

/-- Effect of the dynamic `UPDATE ... SET <fields>, updated_at = NOW()`
statement on one row. -/
def applyUpdate (r : TodoRow) (p : UpdatePatch) (now : Nat) : TodoRow :=
  { r with
    title := p.title.getD r.title
    description := p.description.getD r.description
    priority := p.priority.getD r.priority
    due_date := p.due_date.getD r.due_date
    completed := p.completed.getD r.completed
    updated_at := now }

/-- `PATCH /api/todos/:id`: builds the dynamic update; with zero
recognized fields it throws `createError('No fields to update', 400)`
before touching the database; otherwise runs the `UPDATE ... WHERE id`
returning 404 when no row matched.  Returns the store after the request
paired with the response. -/
def patchHandler (store : List TodoRow) (id : String) (p : UpdatePatch)
    (now : Nat) : List TodoRow × Except HErr TodoRow :=
  if patchFieldCount p = 0 then
    (store, .error ⟨400, "No fields to update"⟩)
  else
    match store.find? (fun r => decide (r.id = id)) with
    | none => (store, .error ⟨404, "Todo not found"⟩)
    | some r =>
      (store.map (fun x => if decide (x.id = id) then applyUpdate x p now else x),
       .ok (applyUpdate r p now))

/-- Effect of `SET completed = NOT completed, updated_at = NOW()` on one row. -/
def applyToggle (r : TodoRow) (now : Nat) : TodoRow :=
  { r with completed := !r.completed, updated_at := now }

/-- `POST /api/todos/:id/toggle`: flips `completed` in place, refreshing
`updated_at`; 404 when the id matches no row. -/
def toggleHandler (store : List TodoRow) (id : String) (now : Nat) :
    List TodoRow × Except HErr TodoRow :=
  match store.find? (fun r => decide (r.id = id)) with
  | none => (store, .error ⟨404, "Todo not found"⟩)
  | some r =>
    (store.map (fun x => if decide (x.id = id) then applyToggle x now else x),
     .ok (applyToggle r now))

/-- `due_date < NOW() AND completed = false` — the overdue predicate of
the stats route. -/
def isOverdue (now : Nat) (r : TodoRow) : Bool :=
  (match r.due_date with
   | some d => decide (d < now)
   | none => false) && !r.completed

/-- Fuel-driven binary logarithm, `⌊log2 n⌋` for `n ≥ 1` (0 at 0). -/
def log2Aux : Nat → Nat → Nat
  | 0, _ => 0
  | fuel + 1, n => if n < 2 then 0 else log2Aux fuel (n / 2) + 1

def natLog2 (n : Nat) : Nat := log2Aux n n

/-- Round the rational `a/b` (with `b > 0`) to the nearest integer,
ties to even — the IEEE 754 default rounding. -/
def natRoundHalfEven (a b : Nat) : Nat :=
  let n := a / b
  let r := a % b
  if 2 * r < b then n
  else if b < 2 * r then n + 1
  else if n % 2 = 0 then n else n + 1

/-- `a/b < 2^k` for an integer exponent. -/
def ratLtPow2 (a b : Nat) : Int → Bool
  | .ofNat n => a < b * 2 ^ n
  | .negSucc n => a * 2 ^ (n + 1) < b

/-- `⌊log2 (a/b)⌋` for positive `a`, `b`. -/
def ratFloorLog2 (a b : Nat) : Int :=
  let k0 : Int := (natLog2 a : Int) - (natLog2 b : Int)
  if ratLtPow2 a b k0 then k0 - 1
  else if ratLtPow2 a b (k0 + 1) then k0
  else k0 + 1

/-- The exact value of the IEEE 754 binary64 double nearest to `a/b`
(round to nearest, ties to even), returned as a numerator/denominator
pair: the significand is `a/b · 2^(52-⌊log2 (a/b)⌋)` rounded to the
nearest even integer.  Subnormals and overflow, far outside the count
range of this application, are not modelled. -/
def roundDoubleRat (a b : Nat) : Nat × Nat :=
  if a = 0 ∨ b = 0 then (0, 1)
  else
    match 52 - ratFloorLog2 a b with
    | .ofNat s => (natRoundHalfEven (a * 2 ^ s) b, 2 ^ s)
    | .negSucc s => (natRoundHalfEven a (b * 2 ^ (s + 1)) * 2 ^ (s + 1), 1)

/-- `Math.round` on the exact value `a/b ≥ 0`: nearest integer, ties
toward positive infinity, i.e. `⌊(a/b) + 1/2⌋`. -/
def mathRoundNat (a b : Nat) : Nat := (2 * a + b) / (2 * b)

/-- `Math.round((completed / total) * 100)` exactly as JavaScript
evaluates it: `completed / total` is rounded to the nearest binary64
double, that double is multiplied by the (exactly representable) 100 and
rounded to a double again, and `Math.round` is applied to the result —
e.g. 23/40 gives 57 (via 57.49999999999999), not the exact half-up
rounding 58. -/
def jsCompletionRate (c t : Nat) : Nat :=
  let v1 := roundDoubleRat c t
  let v2 := roundDoubleRat (v1.1 * 100) v1.2
  mathRoundNat v2.1 v2.2

/-- Body of the `GET /api/stats` response. -/
structure StatsResp where
  total : Nat
  completed : Nat
  incomplete : Nat
  completionRate : Nat
  byPriority : List (Priority × Nat)
  overdue : Nat
deriving DecidableEq, Repr

/-- `GET /api/stats`: counts, `incomplete = total - completed`,
`completionRate = Math.round((completed/total)*100)` evaluated in double
precision (`jsCompletionRate`; 0 when the table is empty), per-priority
groups ordered high, medium, low with empty groups absent, and the
overdue count. -/
def statsHandler (store : List TodoRow) (now : Nat) : StatsResp :=
  let total := store.length
  let completed := (store.filter (fun r => r.completed)).length
  { total := total
    completed := completed
    incomplete := total - completed
    completionRate := if total = 0 then 0 else jsCompletionRate completed total
    byPriority :=
      ([Priority.high, Priority.medium, Priority.low].map
        (fun p => (p, (store.filter (fun r => decide (r.priority = p))).length))).filter
        (fun q => decide (0 < q.2))
    overdue := (store.filter (isOverdue now)).length }

/-- Raw `req.query` for `GET /api/todos`: each parameter either absent or
a string, as Express delivers it. -/
structure RawListQuery where
  completed : Option String := none
  priority : Option String := none
  search : Option String := none
  page : Option String := none
  limit : Option String := none
deriving DecidableEq, Repr

/-- Output of `listTodosQuerySchema.parse`.  `page`/`limit` are `none`
when `Number(...)` produced `NaN`; `completed` keeps the `Option` so the
route's `completed !== undefined` guard can be written as in the source
(the Zod transform in fact always produces a boolean — see
`parseListQuery`). -/
structure ListTodosQuery where
  completed : Option Bool
  priority : Option Priority
  search : Option String
  page : Option Int
  limit : Option Int
deriving DecidableEq, Repr

def parsePriority (s : String) : Option Priority :=
  if s = "low" then some .low
  else if s = "medium" then some .medium
  else if s = "high" then some .high
  else none

def natOfDigitsAux : List Char → Nat → Option Nat
  | [], acc => some acc
  | c :: t, acc =>
    if c.isDigit then natOfDigitsAux t (acc * 10 + (c.toNat - 48)) else none

def natOfDigits : List Char → Option Nat
  | [] => none
  | l => natOfDigitsAux l 0

/-- JS `Number(s)` restricted to the integral fragment: `''` is `0`,
decimal digit strings (optionally `-`-signed) are their value, everything
else is `NaN` (modelled `none`).  Non-integral numerics are outside the
model. -/
def jsNumber (s : String) : Option Int :=
  if s = "" then some 0
  else
    match s.toList with
    | '-' :: rest => (natOfDigits rest).map (fun n => -(n : Int))
    | l => (natOfDigits l).map (fun n => (n : Int))

/-- `listTodosQuerySchema.parse` on `req.query`.  Faithful to the Zod
schema: `completed: z.enum(['true','false']).optional().transform(v => v === 'true')`
runs the transform even when the parameter is absent (Zod applies the
transform to the `undefined` produced by `optional()`), so an absent
parameter parses to `some false`, never to `none`; `page`/`limit` default
to the strings `'1'`/`'50'` and are piped through `Number` with no
positivity or integrality check. -/
def parseListQuery (q : RawListQuery) : Except String ListTodosQuery := do
  let completed ←
    match q.completed with
    | none => pure (some false)
    | some s =>
      if s = "true" then pure (some true)
      else if s = "false" then pure (some false)
      else throw "completed"
  let priority ←
    match q.priority with
    | none => pure none
    | some s =>
      match parsePriority s with
      | some p => pure (some p)
      | none => throw "priority"
  pure
    { completed := completed
      priority := priority
      search := q.search
      page := jsNumber (q.page.getD "1")
      limit := jsNumber (q.limit.getD "50") }

/-- The `WHERE` clause the list route assembles: a `completed` condition
when the parsed value is not `undefined`, a `priority` condition when the
parsed priority is truthy, and an `ILIKE` disjunction over title and
description when `search` is a nonempty string (an SQL `NULL` description
never matches). -/
def rowMatches (completed : Option Bool) (priority : Option Priority)
    (search : Option String) (r : TodoRow) : Bool :=
  (match completed with
   | some b => decide (r.completed = b)
   | none => true) &&
  (match priority with
   | some p => decide (r.priority = p)
   | none => true) &&
  (match search with
   | some s =>
     if s = "" then true
     else
       strContainsCI r.title s ||
       (match r.description with
        | some d => strContainsCI d s
        | none => false)
   | none => true)

/-- Insert into a list already sorted by `created_at` descending. -/
def sortInsert (x : TodoRow) : List TodoRow → List TodoRow
  | [] => [x]
  | y :: t => if x.created_at ≤ y.created_at then y :: sortInsert x t else x :: y :: t

/-- `ORDER BY created_at DESC` (insertion sort). -/
def sortByCreatedDesc : List TodoRow → List TodoRow
  | [] => []
  | x :: t => sortInsert x (sortByCreatedDesc t)

structure Pagination where
  page : Int
  limit : Int
  total : Nat
  totalPages : Nat
deriving DecidableEq, Repr

structure ListResponse where
  data : List TodoRow
  pagination : Pagination
deriving DecidableEq, Repr

/-- `GET /api/todos` after query validation: filters, sorts by
`created_at` descending, applies `LIMIT limit OFFSET (page-1)*limit`, and
reports `total` from the twin count query and
`totalPages = Math.ceil(total/limit)`.  A `NaN` page or limit, a negative
limit or offset (a Postgres error), and `limit = 0` (whose JS
`totalPages` is `Infinity`, outside this integral model) surface as a
500-level failure. -/
def listHandler (q : ListTodosQuery) (rows : List TodoRow) :
    Except HErr ListResponse :=
  match q.page, q.limit with
  | some page, some limit =>
    let offset : Int := (page - 1) * limit
    if limit ≤ 0 ∨ offset < 0 then .error ⟨500, "Internal server error"⟩
    else
      let matched := rows.filter (rowMatches q.completed q.priority q.search)
      let sorted := sortByCreatedDesc matched
      let total := matched.length
      .ok
        { data := (sorted.drop offset.toNat).take limit.toNat
          pagination :=
            { page := page
              limit := limit
              total := total
              totalPages := (total + limit.toNat - 1) / limit.toNat } }
  | _, _ => .error ⟨500, "Internal server error"⟩

/-- The full list route: `validateQuery(listTodosQuerySchema)` (a Zod
failure becomes a 400 `Validation failed` via the error handler) followed
by the handler. -/
def listEndpoint (raw : RawListQuery) (rows : List TodoRow) :
    Except HErr ListResponse :=
  match parseListQuery raw with
  | .error _ => .error ⟨400, "Validation failed"⟩
  | .ok q => listHandler q rows

/-- Raw `req.body` of a PATCH request: the recognized fields plus an
`updated_at` member a caller may try to smuggle in (`updateTodoSchema`
has no such key, and `z.object` strips unrecognized keys). -/
structure RawUpdateBody where
  title : Option String := none
  description : Option (Option String) := none
  priority : Option String := none
  due_date : Option (Option Nat) := none
  completed : Option Bool := none
  updated_at : Option Nat := none
deriving DecidableEq, Repr

def titleOk : Option String → Bool
  | none => true
  | some s => decide (1 ≤ s.length) && decide (s.length ≤ 500)

def descOk : Option (Option String) → Bool
  | some (some d) => decide (d.length ≤ 5000)
  | _ => true

/-- `updateTodoSchema.parse(req.body)`: bounds-checks the recognized
fields, validates `priority` against the enum, and silently drops the
unrecognized `updated_at` key. -/
def parseUpdateBody (b : RawUpdateBody) : Except String UpdatePatch :=
  if !titleOk b.title then .error "title"
  else if !descOk b.description then .error "description"
  else
    match b.priority with
    | none =>
      .ok { title := b.title, description := b.description, priority := none,
            due_date := b.due_date, completed := b.completed }
    | some s =>
      match parsePriority s with
      | none => .error "priority"
      | some p =>
        .ok { title := b.title, description := b.description, priority := some p,
              due_date := b.due_date, completed := b.completed }

/-- Body of an API error response as the client declares it
(`ApiError` in `shared/types`): all members optional at runtime since the
backend actually sends only `error` (and sometimes `details`). -/
structure ErrorBody where
  error : Option String := none
  message : Option String := none
  statusCode : Option Nat := none
  details : Option String := none
deriving DecidableEq, Repr

/-- What one `fetch` attempt produced: a network-level rejection carrying
the thrown error's message, or a response with a status code and,
when `response.json()` succeeds, a parsed body (`none` = the body failed
to parse as JSON). -/
inductive FetchOutcome where
  | noResponse (errMsg : String)
  | response (status : Nat) (body : Option ErrorBody)
deriving DecidableEq, Repr

/-- The data of an `ApiClientError` thrown by the client. -/
structure ApiClientError where
  message : String
  statusCode : Nat
  details : Option String := none
deriving DecidableEq, Repr

/-- Message of the exception `response.json()` throws on a non-JSON body. -/
def jsonParseFailMsg : String := "Unexpected token"

/-- The JS idiom `m || d` on an optional string: both `undefined` and the
falsy empty string fall back to the default. -/
def jsStringOr (m : Option String) (d : String) : String :=
  match m with
  | some s => if s = "" then d else s
  | none => d

/-- `fetchApi` of `api/client.ts`: a 204 resolves to an empty value before
any body parsing; otherwise the body is parsed (a parse failure is caught
by the enclosing `catch`, which wraps any non-`ApiClientError` exception
with `statusCode` 0); a non-ok response throws an `ApiClientError` built
from `body.message || 'An error occurred'` (JS falsiness: an absent *or
empty* message falls back to the default), the response status and the
body's `details`; a network-level rejection is wrapped with
`statusCode` 0. -/
def fetchApi (o : FetchOutcome) : Except ApiClientError (Option ErrorBody) :=
  match o with
  | .noResponse msg => .error { message := msg, statusCode := 0 }
  | .response status body =>
    if status = 204 then .ok none
    else
      match body with
      | none => .error { message := jsonParseFailMsg, statusCode := 0 }
      | some b =>
        if 200 ≤ status ∧ status ≤ 299 then .ok (some b)
        else
          .error { message := jsStringOr b.message "An error occurred",
                   statusCode := status, details := b.details }

/-- The error object reaching the Express `errorHandler`: whether it is a
`ZodError` (with its issues as path/message pairs), its `message`, and the
optional `statusCode`/`details` of a `createError`-made `ApiError`. -/
structure ApiErr where
  isZodError : Bool := false
  zodIssues : List (String × String) := []
  message : String := ""
  statusCode : Option Nat := none
  details : Option String := none
deriving DecidableEq, Repr

inductive ErrDetails where
  | fieldIssues (issues : List (String × String))
  | payload (d : String)
deriving DecidableEq, Repr

/-- An error response as sent by the middleware. -/
structure ErrResponse where
  status : Nat
  error : String
  details : Option ErrDetails := none
deriving DecidableEq, Repr

/-- `errorHandler` of `middleware/errorHandler.ts`: Zod errors become 400
`Validation failed` with per-field issues; messages containing
`duplicate key` become 409; messages containing `violates foreign key`
become 400 `Invalid reference`; otherwise the status is
`err.statusCode || 500` (so an unset — or falsy 0 — code is 500) and the
body's `error` is the fixed `Internal server error` string exactly when
that status is 500, the error's own message otherwise; `details` is
attached only when present. -/
def errorHandler (e : ApiErr) : ErrResponse :=
  if e.isZodError then
    { status := 400, error := "Validation failed",
      details := some (.fieldIssues e.zodIssues) }
  else if strContainsSub e.message "duplicate key" then
    { status := 409, error := "Resource already exists" }
  else if strContainsSub e.message "violates foreign key" then
    { status := 400, error := "Invalid reference" }
  else
    let statusCode :=
      match e.statusCode with
      | none => 500
      | some s => if s = 0 then 500 else s
    { status := statusCode
      error := if statusCode = 500 then "Internal server error" else e.message
      details := e.details.map .payload }

/-- Canonical filter object of `queryKeys.todos.list(filters)`
(`TodoFilters` in `shared/types`). -/
structure ListFilters where
  completed : Option Bool := none
  priority : Option Priority := none
  search : Option String := none
  page : Option Nat := none
  limit : Option Nat := none
deriving DecidableEq, Repr

/-- One segment of a hierarchical React Query key: a string literal or
the filter object ending a list key (possibly `undefined`). -/
inductive KeySeg where
  | str (s : String)
  | filt (f : Option ListFilters)
deriving DecidableEq, Repr

/-- React Query keys are arrays of segments. -/
abbrev QueryKey := List KeySeg

/-- React Query query-filter matching: the filter key must be a prefix of
the entry's key. -/
def keyMatches : QueryKey → QueryKey → Bool
  | [], _ => true
  | _ :: _, [] => false
  | p :: ps, k :: ks => decide (p = k) && keyMatches ps ks

def todosListsKey : QueryKey := [.str "todos", .str "list"]

def todosListKey (f : Option ListFilters) : QueryKey :=
  [.str "todos", .str "list", .filt f]

def todosDetailKey (id : String) : QueryKey :=
  [.str "todos", .str "detail", .str id]

def statsAllKey : QueryKey := [.str "stats"]

/-- Cached value of a list query (`TodoListResponse` in `shared/types`):
the hooks' optimistic updaters read and write `todos` and `total`. -/
structure ListData where
  todos : List TodoRow
  total : Int
  page : Nat
  limit : Nat
  totalPages : Nat
deriving DecidableEq, Repr

/-- Data held by one cache entry: a list page, a detail record, or the
stats aggregate. -/
inductive CacheVal where
  | list (d : ListData)
  | todo (t : TodoRow)
  | stats (s : StatsResp)
deriving DecidableEq, Repr

/-- One entry of the query cache, with a counter of how many times
`invalidateQueries` has marked it (an entry is stale as soon as the
counter is positive; the claims count invalidation events). -/
structure CEntry where
  key : QueryKey
  val : CacheVal
  invalidations : Nat
deriving DecidableEq, Repr

/-- The query cache. -/
abbrev Cache := List CEntry

/-- `queryClient.getQueryData(key)` — exact key lookup. -/
def getQueryData (c : Cache) (k : QueryKey) : Option CacheVal :=
  (c.find? (fun e => decide (e.key = k))).map (fun e => e.val)

def containsKey (c : Cache) (k : QueryKey) : Bool :=
  c.any (fun e => decide (e.key = k))

/-- `queryClient.setQueryData(key, value)` with a plain value: replaces
the entry, creating it when absent. -/
def setQueryDataVal (c : Cache) (k : QueryKey) (v : CacheVal) : Cache :=
  if containsKey c k then
    c.map (fun e => if decide (e.key = k) then { e with val := v } else e)
  else
    c ++ [{ key := k, val := v, invalidations := 0 }]

/-- `queryClient.setQueryData(key, updater)` with an updater of the shape
`old => old === undefined ? old : f(old)` used by the hooks: a missing
entry stays missing (the updater bails out), a present one is mapped. -/
def setQueryDataWith (c : Cache) (k : QueryKey) (g : CacheVal → CacheVal) : Cache :=
  c.map (fun e => if decide (e.key = k) then { e with val := g e.val } else e)

/-- `queryClient.setQueriesData({ queryKey }, updater)`: applies the
updater to every cached entry whose key matches the filter prefix. -/
def setQueriesDataWith (c : Cache) (pre : QueryKey) (g : CacheVal → CacheVal) : Cache :=
  c.map (fun e => if keyMatches pre e.key then { e with val := g e.val } else e)

/-- `queryClient.setQueriesData({ queryKey }, value)` with a plain value:
overwrites every matching entry with that single value. -/
def setQueriesDataVal (c : Cache) (pre : QueryKey) (v : CacheVal) : Cache :=
  c.map (fun e => if keyMatches pre e.key then { e with val := v } else e)

/-- `queryClient.invalidateQueries({ queryKey })`: marks every matching
entry invalidated (counted). -/
def invalidateQueries (c : Cache) (pre : QueryKey) : Cache :=
  c.map (fun e =>
    if keyMatches pre e.key then { e with invalidations := e.invalidations + 1 } else e)

/-- `UpdateTodoRequest` as the mutation receives it: present members
override on spread. -/
structure UpdateReq where
  title : Option String := none
  description : Option String := none
  completed : Option Bool := none
  priority : Option Priority := none
  due_date : Option (Option Nat) := none
deriving DecidableEq, Repr

/-- `{ ...todo, ...data, updated_at: new Date().toISOString() }`. -/
def mergePatch (t : TodoRow) (d : UpdateReq) (now : Nat) : TodoRow :=
  { t with
    title := d.title.getD t.title
    description := match d.description with
                   | some s => some s
                   | none => t.description
    completed := d.completed.getD t.completed
    priority := d.priority.getD t.priority
    due_date := d.due_date.getD t.due_date
    updated_at := now }

/-- Whether the transport call of a mutation succeeded. -/
inductive MutOutcome where
  | success
  | failure
deriving DecidableEq, Repr

/-- List-entry updater of `useUpdateTodo.onMutate`: patch every occurrence
of the id.  Only list values occur under the list prefix. -/
def updListVal (id : String) (d : UpdateReq) (now : Nat) : CacheVal → CacheVal
  | .list ld =>
    .list { ld with
            todos := ld.todos.map (fun t => if decide (t.id = id) then mergePatch t d now else t) }
  | v => v

/-- Detail-entry updater of `useUpdateTodo.onMutate`. -/
def updDetailVal (d : UpdateReq) (now : Nat) : CacheVal → CacheVal
  | .todo t => .todo (mergePatch t d now)
  | v => v

/-- Cache state after `useUpdateTodo.onMutate` has applied its optimistic
writes: patch the detail entry of the id and every cached list variant. -/
def updMutatedCache (c0 : Cache) (id : String) (d : UpdateReq) (now : Nat) : Cache :=
  setQueriesDataWith (setQueryDataWith c0 (todosDetailKey id) (updDetailVal d now))
    todosListsKey (updListVal id d now)

/-- First rollback write of `useUpdateTodo.onError`: restore the detail
snapshot (`getQueryData` on the full detail key, taken at `onMutate` from
`c0`) when it is defined. -/
def updRolledDetail (c0 : Cache) (id : String) (d : UpdateReq) (now : Nat) : Cache :=
  match getQueryData c0 (todosDetailKey id) with
  | some v => setQueryDataVal (updMutatedCache c0 id d now) (todosDetailKey id) v
  | none => updMutatedCache c0 id d now

/-- Cache state of an update mutation when `onSettled` starts: on success
the optimistic state stands; on failure `onError` has written back the
two snapshots where defined — the list snapshot being, as written in the
source, the exact-match `getQueryData` of the bare two-segment `lists()`
key. -/
def updSettledCache (c0 : Cache) (id : String) (d : UpdateReq) (now : Nat) :
    MutOutcome → Cache
  | .success => updMutatedCache c0 id d now
  | .failure =>
    match getQueryData c0 todosListsKey with
    | some v => setQueriesDataVal (updRolledDetail c0 id d now) todosListsKey v
    | none => updRolledDetail c0 id d now

/-- One full settlement of the `useUpdateTodo` mutation, from the cache
state at `onMutate` to the cache state after `onSettled`: snapshot,
optimistic write, commit-or-rollback, then invalidation of `detail(id)`,
the list prefix and the stats key. -/
def runUpdateTodo (c0 : Cache) (id : String) (d : UpdateReq) (now : Nat)
    (outcome : MutOutcome) : Cache :=
  invalidateQueries
    (invalidateQueries
      (invalidateQueries (updSettledCache c0 id d now outcome) (todosDetailKey id))
      todosListsKey)
    statsAllKey

/-- `CreateTodoRequest`. -/
structure CreateReq where
  title : String
  description : Option String := none
  priority : Option Priority := none
  due_date : Option Nat := none
deriving DecidableEq, Repr

/-- The synthesized optimistic todo of `useCreateTodo.onMutate`:
placeholder id `temp-<Date.now()>`, `completed` hard-coded false,
`newTodo.description || null` (an empty string is falsy), priority
defaulted to medium, client timestamps. -/
def optimisticTodo (r : CreateReq) (now : Nat) : TodoRow :=
  { id := "temp-" ++ toString now
    title := r.title
    description := match r.description with
                   | some s => if s = "" then none else some s
                   | none => none
    completed := false
    priority := r.priority.getD .medium
    due_date := r.due_date
    created_at := now
    updated_at := now }

/-- List-entry updater of `useCreateTodo.onMutate`: prepend the
optimistic todo and bump `total`. -/
def createListVal (r : CreateReq) (now : Nat) : CacheVal → CacheVal
  | .list ld => .list { ld with todos := optimisticTodo r now :: ld.todos, total := ld.total + 1 }
  | v => v

/-- Cache state after `useCreateTodo.onMutate`: prepend the optimistic
todo to every cached list variant. -/
def createMutatedCache (c0 : Cache) (r : CreateReq) (now : Nat) : Cache :=
  setQueriesDataWith c0 todosListsKey (createListVal r now)

/-- Cache state of a create mutation when `onSettled` starts: on failure
the snapshot of the bare `lists()` key is written back when defined. -/
def createSettledCache (c0 : Cache) (r : CreateReq) (now : Nat) :
    MutOutcome → Cache
  | .success => createMutatedCache c0 r now
  | .failure =>
    match getQueryData c0 todosListsKey with
    | some v => setQueriesDataVal (createMutatedCache c0 r now) todosListsKey v
    | none => createMutatedCache c0 r now

/-- One full settlement of the `useCreateTodo` mutation: snapshot the
bare `lists()` key, optimistically prepend to every cached list variant,
restore the snapshot on failure when it is defined, then invalidate the
list prefix and the stats key. -/
def runCreateTodo (c0 : Cache) (r : CreateReq) (now : Nat)
    (outcome : MutOutcome) : Cache :=
  invalidateQueries (invalidateQueries (createSettledCache c0 r now outcome) todosListsKey)
    statsAllKey

/-- Detail-entry updater of `useToggleTodo.onMutate`: flip `completed`
and refresh `updated_at`. -/
def toggleDetailVal (now : Nat) : CacheVal → CacheVal
  | .todo t => .todo { t with completed := !t.completed, updated_at := now }
  | v => v

/-- List-entry updater of `useToggleTodo.onMutate`: flip every
occurrence of the id. -/
def toggleListVal (id : String) (now : Nat) : CacheVal → CacheVal
  | .list ld =>
    .list { ld with
            todos := ld.todos.map (fun t =>
              if decide (t.id = id) then { t with completed := !t.completed, updated_at := now }
              else t) }
  | v => v

/-- Cache state after `useToggleTodo.onMutate`. -/
def toggleMutatedCache (c0 : Cache) (id : String) (now : Nat) : Cache :=
  setQueriesDataWith (setQueryDataWith c0 (todosDetailKey id) (toggleDetailVal now))
    todosListsKey (toggleListVal id now)

/-- First rollback write of `useToggleTodo.onError`: restore the detail
snapshot when it is defined. -/
def toggleRolledDetail (c0 : Cache) (id : String) (now : Nat) : Cache :=
  match getQueryData c0 (todosDetailKey id) with
  | some v => setQueryDataVal (toggleMutatedCache c0 id now) (todosDetailKey id) v
  | none => toggleMutatedCache c0 id now

/-- Cache state of a toggle mutation when `onSettled` starts. -/
def toggleSettledCache (c0 : Cache) (id : String) (now : Nat) :
    MutOutcome → Cache
  | .success => toggleMutatedCache c0 id now
  | .failure =>
    match getQueryData c0 todosListsKey with
    | some v => setQueriesDataVal (toggleRolledDetail c0 id now) todosListsKey v
    | none => toggleRolledDetail c0 id now

/-- One full settlement of the `useToggleTodo` mutation: same shape as
update (snapshot detail and bare `lists()` key, optimistic flip,
commit-or-rollback), then invalidation of `detail(id)`, the list prefix
and the stats key. -/
def runToggleTodo (c0 : Cache) (id : String) (now : Nat)
    (outcome : MutOutcome) : Cache :=
  invalidateQueries
    (invalidateQueries
      (invalidateQueries (toggleSettledCache c0 id now outcome) (todosDetailKey id))
      todosListsKey)
    statsAllKey

/-- List-entry updater of `useDeleteTodo.onMutate`: drop the id from
every cached list variant and decrement `total`. -/
def deleteListVal (id : String) : CacheVal → CacheVal
  | .list ld =>
    .list { ld with
            todos := ld.todos.filter (fun t => !decide (t.id = id))
            total := ld.total - 1 }
  | v => v

/-- Cache state after `useDeleteTodo.onMutate` (the detail entry is left
untouched). -/
def deleteMutatedCache (c0 : Cache) (id : String) : Cache :=
  setQueriesDataWith c0 todosListsKey (deleteListVal id)

/-- Cache state of a delete mutation when `onSettled` starts: on failure
the snapshot of the bare `lists()` key is written back when defined. -/
def deleteSettledCache (c0 : Cache) (id : String) : MutOutcome → Cache
  | .success => deleteMutatedCache c0 id
  | .failure =>
    match getQueryData c0 todosListsKey with
    | some v => setQueriesDataVal (deleteMutatedCache c0 id) todosListsKey v
    | none => deleteMutatedCache c0 id

/-- One full settlement of the `useDeleteTodo` mutation: snapshot the
bare `lists()` key, optimistically remove from every cached list
variant, restore the snapshot on failure when defined, then invalidate
the list prefix and the stats key (no detail invalidation in
`useDeleteTodo.onSettled`). -/
def runDeleteTodo (c0 : Cache) (id : String) (outcome : MutOutcome) : Cache :=
  invalidateQueries (invalidateQueries (deleteSettledCache c0 id outcome) todosListsKey)
    statsAllKey

/-! Concrete fixtures used by witnesses and counterexamples. -/

/-- A completed high-priority row. -/
def rowDone : TodoRow :=
  { id := "d1", title := "Ship release", description := none, completed := true,
    priority := .high, due_date := none, created_at := 20, updated_at := 20 }

/-- An incomplete medium-priority row with a due date. -/
def rowPend : TodoRow :=
  { id := "p1", title := "Write report", description := some "quarterly text",
    completed := false, priority := .medium, due_date := some 5,
    created_at := 10, updated_at := 10 }

/-- The cached todo of the frontend fixtures. -/
def tA : TodoRow :=
  { id := "a", title := "old", description := none, completed := false,
    priority := .medium, due_date := none, created_at := 10, updated_at := 10 }

def fAll : ListFilters := {}

def ldA : ListData := { todos := [tA], total := 1, page := 1, limit := 50, totalPages := 1 }

def stA : StatsResp :=
  { total := 1, completed := 0, incomplete := 1, completionRate := 0,
    byPriority := [(.medium, 1)], overdue := 0 }

/-- A client cache holding one list variant, the detail entry for `tA`
and the stats entry — the state right after a fetch of each. -/
def cacheA : Cache :=
  [ { key := todosListKey (some fAll), val := .list ldA, invalidations := 0 },
    { key := todosDetailKey "a", val := .todo tA, invalidations := 0 },
    { key := statsAllKey, val := .stats stA, invalidations := 0 } ]

/-- The update request of the failing mutation. -/
def updNew : UpdateReq := { title := some "new" }

/-- Key together with invalidation count of every cache entry — the
observation C2 is about. -/
def invProj (c : Cache) : List (QueryKey × Nat) :=
  c.map (fun e => (e.key, e.invalidations))

/-- The keys `useUpdateTodo.onSettled` (and `useToggleTodo.onSettled`)
invalidates: the detail entry of the target id, every list variant, and
stats. -/
def affectedUpd (id : String) (k : QueryKey) : Bool :=
  keyMatches (todosDetailKey id) k || keyMatches todosListsKey k ||
    keyMatches statsAllKey k

/-- The keys `useCreateTodo.onSettled` (and `useDeleteTodo.onSettled`)
invalidates: every list variant and stats. -/
def affectedCreate (k : QueryKey) : Bool :=
  keyMatches todosListsKey k || keyMatches statsAllKey k

/-- Query used by the C4 witness: page 1, limit 2. -/
def qW : ListTodosQuery :=
  { completed := some false, priority := none, search := none,
    page := some 1, limit := some 2 }

/-- A table with 23 completed and 17 incomplete rows — the 23/40
completion ratio at which double-precision rounding diverges from exact
rounding. -/
def store2340 : List TodoRow :=
  List.replicate 23 rowDone ++ List.replicate 17 rowPend

/-- C5: an update patch with zero recognized fields is rejected with the
"nothing to update" error (`No fields to update`, status 400) and the
store is returned unchanged — no write happens. -/
theorem C5_empty_patch_rejected (store : List TodoRow) (id : String)
    (p : UpdatePatch) (now : Nat) (h : patchFieldCount p = 0) :
    patchHandler store id p now = (store, .error ⟨400, "No fields to update"⟩) := by
  simp [patchHandler, h]

theorem C5_empty_patch_rejected_witness :
    patchFieldCount ({} : UpdatePatch) = 0 ∧
    patchHandler [rowDone] "d1" {} 5 = ([rowDone], .error ⟨400, "No fields to update"⟩) :=
  ⟨rfl, C5_empty_patch_rejected [rowDone] "d1" {} 5 rfl⟩

/-- C10: any error that is not a Zod error, not a duplicate-key error and
not a foreign-key error, and whose `statusCode` is 500 or unset, yields
the fixed body `Internal server error` with status 500 — the internal
message never reaches the response. -/
theorem C10_internal_error_masked (e : ApiErr)
    (hz : e.isZodError = false)
    (hd : strContainsSub e.message "duplicate key" = false)
    (hf : strContainsSub e.message "violates foreign key" = false)
    (hs : e.statusCode = some 500 ∨ e.statusCode = none) :
    (errorHandler e).error = "Internal server error" ∧ (errorHandler e).status = 500 := by
  rcases hs with h | h <;> simp [errorHandler, hz, hd, hf, h]

theorem C10_internal_error_masked_witness :
    (errorHandler { message := "boom" }).error = "Internal server error" ∧
    (errorHandler { message := "boom" }).status = 500 :=
  C10_internal_error_masked { message := "boom" } rfl (by decide) (by decide) (Or.inr rfl)

/-- C9 fails as stated: a 500 response whose body is not JSON is surfaced
with `statusCode` 0, exactly like a network-level failure — it does not
carry the response's status code and cannot be distinguished from
"could not reach server". -/
theorem C9_counterexample :
    fetchApi (.response 500 none) =
      .error { message := jsonParseFailMsg, statusCode := 0, details := none } ∧
    fetchApi (.noResponse jsonParseFailMsg) =
      .error { message := jsonParseFailMsg, statusCode := 0, details := none } :=
  ⟨rfl, rfl⟩

/-- C9 amended: a network-level failure is surfaced with `statusCode` 0;
a non-2xx response *whose body parses as JSON* is surfaced as an
`ApiClientError` carrying the response's status code (a response whose
body fails to parse is also surfaced with `statusCode` 0); a 204 response
resolves to an empty success value without attempting to parse a body. -/
theorem C9_amended_error_mapping (msg : String) (s : Nat) (b : ErrorBody)
    (ob : Option ErrorBody) (hs204 : s ≠ 204) (hsnok : ¬(200 ≤ s ∧ s ≤ 299)) :
    fetchApi (.noResponse msg) = .error { message := msg, statusCode := 0 } ∧
    fetchApi (.response s (some b)) =
      .error { message := jsStringOr b.message "An error occurred", statusCode := s,
               details := b.details } ∧
    fetchApi (.response 204 ob) = .ok none := by
  refine ⟨rfl, ?_, rfl⟩
  simp [fetchApi, hs204, hsnok]

theorem C9_amended_error_mapping_witness :
    fetchApi (.noResponse "x") = .error { message := "x", statusCode := 0 } ∧
    fetchApi (.response 500 (some {})) =
      .error { message := "An error occurred", statusCode := 500, details := none } ∧
    fetchApi (.response 400 (some { message := some "" })) =
      .error { message := "An error occurred", statusCode := 400, details := none } ∧
    fetchApi (.response 204 none) = .ok none :=
  ⟨(C9_amended_error_mapping "x" 500 {} none (by decide) (by decide)).1,
   (C9_amended_error_mapping "x" 500 {} none (by decide) (by decide)).2.1,
   (C9_amended_error_mapping "x" 400 { message := some "" } none
      (by decide) (by decide)).2.1,
   (C9_amended_error_mapping "x" 500 {} none (by decide) (by decide)).2.2⟩

/-- C3 fails on the code: with no `completed` parameter at all, the list
route still filters on `completed = false` (the Zod
`optional().transform(v => v === 'true')` maps an absent parameter to
`false`, and the route's `completed !== undefined` guard then fires), so
a completed row is dropped from an unfiltered listing. -/
theorem C3_absent_completed_param_filters :
    parseListQuery {} =
      .ok { completed := some false, priority := none, search := none,
            page := some 1, limit := some 50 } ∧
    rowDone.completed = true ∧
    listEndpoint {} [rowDone, rowPend] =
      .ok { data := [rowPend],
            pagination := { page := 1, limit := 50, total := 1, totalPages := 1 } } :=
  ⟨rfl, rfl, rfl⟩

/-- C1 fails on the code: after a failed update settles, the cached list
variant still holds the optimistic value (`title := "new"`) instead of its
pre-mutation value — the snapshot is taken with exact-key `getQueryData`
on the bare two-segment list prefix, where no list data is ever stored,
so the rollback branch is skipped for lists.  The detail entry, whose
snapshot uses the full key, is restored. -/
theorem C1_failed_update_leaves_optimistic_list :
    getQueryData cacheA todosListsKey = none ∧
    getQueryData (runUpdateTodo cacheA "a" updNew 99 .failure)
        (todosListKey (some fAll)) ≠
      getQueryData cacheA (todosListKey (some fAll)) ∧
    getQueryData (runUpdateTodo cacheA "a" updNew 99 .failure)
        (todosListKey (some fAll)) =
      some (.list { todos := [mergePatch tA updNew 99], total := 1, page := 1,
                    limit := 50, totalPages := 1 }) ∧
    getQueryData (runUpdateTodo cacheA "a" updNew 99 .failure) (todosDetailKey "a") =
      some (.todo tA) :=
  ⟨rfl, by decide, rfl, rfl⟩

/-- C2 fails as stated: a mutation whose transport call fails still
invalidates the affected keys in `onSettled` — here the stats entry of a
failed update carries one invalidation, where the claim requires zero. -/
theorem C2_counterexample :
    ((runUpdateTodo cacheA "a" updNew 99 .failure).find?
        (fun e => decide (e.key = statsAllKey))).map (fun e => e.invalidations) =
      some 1 ∧ (1 : Nat) ≠ 0 :=
  ⟨rfl, by decide⟩

/-- `find?` for an id-keyed predicate commutes with a map that preserves
ids. -/
theorem find_id_map (l : List TodoRow) (id : String) (g : TodoRow → TodoRow)
    (hg : ∀ x, (g x).id = x.id) :
    (l.map g).find? (fun x => decide (x.id = id)) =
      (l.find? (fun x => decide (x.id = id))).map g := by
  induction l with
  | nil => rfl
  | cons a t ih =>
    by_cases h : a.id = id
    · have hga : (g a).id = id := by rw [hg a]; exact h
      rw [List.map_cons, List.find?_cons_of_pos _ (by simp [hga]),
        List.find?_cons_of_pos _ (by simp [h])]
      rfl
    · have hga : ¬(g a).id = id := by rw [hg a]; exact h
      rw [List.map_cons, List.find?_cons_of_neg _ (by simp [hga]),
        List.find?_cons_of_neg _ (by simp [h]), ih]

/-- C8: toggling an existing id twice returns its `completed` flag to the
original value — each toggle sets `completed := NOT completed`, so the
second run restores the first's input, both in the returned record and
in the stored row. -/
theorem C8_toggle_twice_involutive (store : List TodoRow) (id : String)
    (n1 n2 : Nat) (r : TodoRow)
    (h : store.find? (fun x => decide (x.id = id)) = some r) :
    ∃ r2 : TodoRow,
      (toggleHandler (toggleHandler store id n1).1 id n2).2 = .ok r2 ∧
      (toggleHandler (toggleHandler store id n1).1 id n2).1.find?
        (fun x => decide (x.id = id)) = some r2 ∧
      r2.completed = r.completed := by
  have hrid : r.id = id := by
    have hp := List.find?_some h
    simpa using hp
  have hg1 : ∀ x : TodoRow,
      ((fun x => if decide (x.id = id) then applyToggle x n1 else x) x).id = x.id := by
    intro x
    by_cases hx : x.id = id <;> simp [hx, applyToggle]
  have hg2 : ∀ x : TodoRow,
      ((fun x => if decide (x.id = id) then applyToggle x n2 else x) x).id = x.id := by
    intro x
    by_cases hx : x.id = id <;> simp [hx, applyToggle]
  have hfst : (toggleHandler store id n1).1 =
      store.map (fun x => if decide (x.id = id) then applyToggle x n1 else x) := by
    simp [toggleHandler, h]
  have hfind2 : (toggleHandler store id n1).1.find? (fun x => decide (x.id = id)) =
      some (applyToggle r n1) := by
    rw [hfst, find_id_map store id _ hg1, h]
    simp [hrid]
  have hrid2 : (applyToggle r n1).id = id := hrid
  refine ⟨applyToggle (applyToggle r n1) n2, ?_, ?_, ?_⟩
  · set s1 := (toggleHandler store id n1).1 with hs1
    simp [toggleHandler, hfind2]
  · set s1 := (toggleHandler store id n1).1 with hs1
    have hfst2 : (toggleHandler s1 id n2).1 =
        s1.map (fun x => if decide (x.id = id) then applyToggle x n2 else x) := by
      simp [toggleHandler, hfind2]
    rw [hfst2, find_id_map s1 id _ hg2, hfind2]
    simp [hrid2]
  · simp [applyToggle]

theorem C8_toggle_twice_involutive_witness :
    ∃ r2 : TodoRow,
      (toggleHandler (toggleHandler [rowPend] "p1" 30).1 "p1" 40).2 = .ok r2 ∧
      (toggleHandler (toggleHandler [rowPend] "p1" 30).1 "p1" 40).1.find?
        (fun x => decide (x.id = "p1")) = some r2 ∧
      r2.completed = rowPend.completed :=
  C8_toggle_twice_involutive [rowPend] "p1" 30 40 rowPend (by decide)

/-- C6: (1) the update schema strips a caller-supplied `updated_at`, so
parsing is insensitive to it; (2) a successful PATCH on an existing id
returns the row with `updated_at` set to the server clock, `id` and
`created_at` untouched and every field absent from the patch unchanged,
and leaves every other row in the store as it was; (3) toggle likewise
changes only `completed` and `updated_at`. -/
theorem C6_update_toggle_frame :
    (∀ b : RawUpdateBody, parseUpdateBody b = parseUpdateBody { b with updated_at := none }) ∧
    (∀ (store : List TodoRow) (id : String) (p : UpdatePatch) (now : Nat) (r : TodoRow),
      0 < patchFieldCount p →
      store.find? (fun x => decide (x.id = id)) = some r →
      (patchHandler store id p now).2 = .ok (applyUpdate r p now) ∧
      (applyUpdate r p now).updated_at = now ∧
      (applyUpdate r p now).id = r.id ∧
      (applyUpdate r p now).created_at = r.created_at ∧
      (p.title = none → (applyUpdate r p now).title = r.title) ∧
      (p.description = none → (applyUpdate r p now).description = r.description) ∧
      (p.priority = none → (applyUpdate r p now).priority = r.priority) ∧
      (p.due_date = none → (applyUpdate r p now).due_date = r.due_date) ∧
      (p.completed = none → (applyUpdate r p now).completed = r.completed) ∧
      (∀ x ∈ store, x.id ≠ id → x ∈ (patchHandler store id p now).1)) ∧
    (∀ (store : List TodoRow) (id : String) (now : Nat) (r : TodoRow),
      store.find? (fun x => decide (x.id = id)) = some r →
      (toggleHandler store id now).2 = .ok (applyToggle r now) ∧
      (applyToggle r now).completed = !r.completed ∧
      (applyToggle r now).updated_at = now ∧
      (applyToggle r now).id = r.id ∧
      (applyToggle r now).title = r.title ∧
      (applyToggle r now).description = r.description ∧
      (applyToggle r now).priority = r.priority ∧
      (applyToggle r now).due_date = r.due_date ∧
      (applyToggle r now).created_at = r.created_at ∧
      (∀ x ∈ store, x.id ≠ id → x ∈ (toggleHandler store id now).1)) := by
  refine ⟨?_, ?_, ?_⟩
  · intro b
    rfl
  · intro store id p now r hc hfind
    have hne : ¬patchFieldCount p = 0 := by omega
    refine ⟨by simp [patchHandler, hne, hfind], rfl, rfl, rfl,
      ?_, ?_, ?_, ?_, ?_, ?_⟩
    · intro h; simp [applyUpdate, h]
    · intro h; simp [applyUpdate, h]
    · intro h; simp [applyUpdate, h]
    · intro h; simp [applyUpdate, h]
    · intro h; simp [applyUpdate, h]
    · intro x hx hxid
      have hfst : (patchHandler store id p now).1 =
          store.map (fun y => if decide (y.id = id) then applyUpdate y p now else y) := by
        simp [patchHandler, hne, hfind]
      rw [hfst]
      have : (fun y => if decide (y.id = id) then applyUpdate y p now else y) x = x := by
        simp [hxid]
      exact this ▸ List.mem_map_of_mem _ hx
  · intro store id now r hfind
    refine ⟨by simp [toggleHandler, hfind], rfl, rfl, rfl, rfl, rfl, rfl, rfl, rfl, ?_⟩
    intro x hx hxid
    have hfst : (toggleHandler store id now).1 =
        store.map (fun y => if decide (y.id = id) then applyToggle y now else y) := by
      simp [toggleHandler, hfind]
    rw [hfst]
    have : (fun y => if decide (y.id = id) then applyToggle y now else y) x = x := by
      simp [hxid]
    exact this ▸ List.mem_map_of_mem _ hx

theorem C6_update_toggle_frame_witness :
    parseUpdateBody { title := some "T", updated_at := some 999 } =
      parseUpdateBody { title := some "T" } ∧
    (patchHandler [rowPend] "p1" { title := some "T" } 77).2 =
      .ok (applyUpdate rowPend { title := some "T" } 77) ∧
    (applyUpdate rowPend { title := some "T" } 77).updated_at = 77 ∧
    (toggleHandler [rowPend] "p1" 77).2 = .ok (applyToggle rowPend 77) :=
  ⟨C6_update_toggle_frame.1 { title := some "T", updated_at := some 999 },
   (C6_update_toggle_frame.2.1 [rowPend] "p1" { title := some "T" } 77 rowPend
      (by decide) (by decide)).1,
   (C6_update_toggle_frame.2.1 [rowPend] "p1" { title := some "T" } 77 rowPend
      (by decide) (by decide)).2.1,
   (C6_update_toggle_frame.2.2 [rowPend] "p1" 77 rowPend (by decide)).1⟩

/-- The incomplete rows are the complement of the completed rows. -/
theorem length_filter_not_completed (l : List TodoRow) :
    (l.filter (fun r => !r.completed)).length =
      l.length - (l.filter (fun r => r.completed)).length := by
  induction l with
  | nil => rfl
  | cons a t ih =>
    have hle : (t.filter (fun r => r.completed)).length ≤ t.length :=
      List.length_filter_le _ _
    cases ha : a.completed <;> simp [List.filter_cons, ha, ih] <;> omega

/-- Overdue rows form a subset of the incomplete rows. -/
theorem overdue_le_not_completed (l : List TodoRow) (now : Nat) :
    (l.filter (isOverdue now)).length ≤ (l.filter (fun r => !r.completed)).length := by
  induction l with
  | nil => simp
  | cons a t ih =>
    cases ha : a.completed
    · cases ho : isOverdue now a <;> simp [List.filter_cons, ha, ho, ih] <;> omega
    · have ho : isOverdue now a = false := by simp [isOverdue, ha]
      simpa [List.filter_cons, ha, ho] using ih

/-- C7 fails in the completionRate conjunct: with 23 of 40 todos
completed, JavaScript evaluates `(23/40)*100` in double precision to
57.49999999999999, so the code returns `Math.round` 57 while the exact
rounding `round(100*23/40) = round(57.5)` is 58. -/
theorem C7_counterexample :
    (statsHandler store2340 0).completed = 23 ∧
    (statsHandler store2340 0).total = 40 ∧
    (statsHandler store2340 0).completionRate = 57 ∧
    round ((100 * ((statsHandler store2340 0).completed : ℚ)) /
      ((statsHandler store2340 0).total : ℚ)) = 58 := by
  have h1 : (statsHandler store2340 0).completed = 23 := by decide
  have h2 : (statsHandler store2340 0).total = 40 := by decide
  refine ⟨h1, h2, by decide, ?_⟩
  rw [h1, h2]
  norm_num [round_eq]

/-- C7 amended: in every stats response, `completed + incomplete =
total`; `completionRate` is 0 on an empty table and otherwise the
double-precision evaluation `Math.round((completed/total)*100)` — which
can differ by one from the exact rounding `round(100*completed/total)`
at half-way ratios such as 23/40; and `overdue` never counts a completed
row, so it is bounded by `incomplete`. -/
theorem C7_amended_stats_invariants (store : List TodoRow) (now : Nat) :
    (statsHandler store now).completed + (statsHandler store now).incomplete =
      (statsHandler store now).total ∧
    ((statsHandler store now).total = 0 → (statsHandler store now).completionRate = 0) ∧
    (0 < (statsHandler store now).total →
      (statsHandler store now).completionRate =
        jsCompletionRate (statsHandler store now).completed
          (statsHandler store now).total) ∧
    (statsHandler store now).overdue ≤ (statsHandler store now).incomplete := by
  have hcle : (store.filter (fun r => r.completed)).length ≤ store.length :=
    List.length_filter_le _ _
  refine ⟨?_, ?_, ?_, ?_⟩
  · simp only [statsHandler]
    omega
  · intro h
    simp only [statsHandler] at h ⊢
    simp [h]
  · intro h
    simp only [statsHandler] at h ⊢
    rw [if_neg (by omega)]
  · simp only [statsHandler]
    have h1 := overdue_le_not_completed store now
    have h2 := length_filter_not_completed store
    omega

theorem C7_amended_stats_invariants_witness :
    0 < (statsHandler [rowDone, rowPend] 30).total ∧
    (statsHandler [rowDone, rowPend] 30).completionRate =
      jsCompletionRate (statsHandler [rowDone, rowPend] 30).completed
        (statsHandler [rowDone, rowPend] 30).total ∧
    (statsHandler [] 0).completionRate = 0 :=
  ⟨by decide, (C7_amended_stats_invariants [rowDone, rowPend] 30).2.2.1 (by decide),
   (C7_amended_stats_invariants [] 0).2.1 rfl⟩

/-- C4 fails in one conjunct: `page` and `limit` are not validated to be
positive integers — the schema pipes any string through `Number`, so a
zero or negative page passes validation unchanged. -/
theorem C4_counterexample :
    parseListQuery { page := some "0" } =
      .ok { completed := some false, priority := none, search := none,
            page := some 0, limit := some 50 } ∧
    parseListQuery { page := some "-3", limit := some "-7" } =
      .ok { completed := some false, priority := none, search := none,
            page := some (-3), limit := some (-7) } :=
  ⟨rfl, rfl⟩

/-- C4 amended: `page`/`limit` default to 1/50 but are *not* checked for
positivity; for any positive page and limit the response is paginated
with `offset = (page-1)*limit`, `data.length ≤ limit`, and `totalPages`
equal to `ceil(total/limit)` — characterized as the least `n` with
`total ≤ n*limit`. -/
theorem C4_amended_pagination :
    (parseListQuery {} =
      .ok { completed := some false, priority := none, search := none,
            page := some 1, limit := some 50 }) ∧
    ∀ (q : ListTodosQuery) (rows : List TodoRow) (p l : Int),
      q.page = some p → q.limit = some l → 1 ≤ p → 1 ≤ l →
      ∃ resp, listHandler q rows = .ok resp ∧
        resp.pagination.page = p ∧
        resp.pagination.limit = l ∧
        resp.data =
          ((sortByCreatedDesc
              (rows.filter (rowMatches q.completed q.priority q.search))).drop
            ((p - 1) * l).toNat).take l.toNat ∧
        resp.data.length ≤ l.toNat ∧
        resp.pagination.total ≤ resp.pagination.totalPages * l.toNat ∧
        (∀ m : Nat, resp.pagination.total ≤ m * l.toNat →
          resp.pagination.totalPages ≤ m) := by
  refine ⟨rfl, ?_⟩
  intro q rows p l hp hl hp1 hl1
  have hoff : (0 : Int) ≤ (p - 1) * l := mul_nonneg (by omega) (by omega)
  have hcond : ¬(l ≤ 0 ∨ (p - 1) * l < 0) := by
    push_neg
    exact ⟨by omega, hoff⟩
  have hln : 0 < l.toNat := by omega
  have hres : listHandler q rows = .ok
      { data := ((sortByCreatedDesc
            (rows.filter (rowMatches q.completed q.priority q.search))).drop
          ((p - 1) * l).toNat).take l.toNat
        pagination :=
          { page := p, limit := l
            total := (rows.filter (rowMatches q.completed q.priority q.search)).length
            totalPages :=
              ((rows.filter (rowMatches q.completed q.priority q.search)).length +
                l.toNat - 1) / l.toNat } } := by
    simp only [listHandler, hp, hl]
    rw [if_neg hcond]
  refine ⟨_, hres, rfl, rfl, rfl, ?_, ?_, ?_⟩
  · dsimp only
    rw [List.length_take]
    exact Nat.min_le_left _ _
  · dsimp only
    set tot := (rows.filter (rowMatches q.completed q.priority q.search)).length with htot
    have hdm := Nat.mod_add_div' (tot + l.toNat - 1) l.toNat
    have hmod : (tot + l.toNat - 1) % l.toNat < l.toNat := Nat.mod_lt _ hln
    omega
  · dsimp only
    intro m hm
    set tot := (rows.filter (rowMatches q.completed q.priority q.search)).length with htot
    have hexp : (m + 1) * l.toNat = m * l.toNat + l.toNat := by ring
    have hlt : tot + l.toNat - 1 < (m + 1) * l.toNat := by omega
    have := (Nat.div_lt_iff_lt_mul hln).mpr hlt
    omega

theorem C4_amended_pagination_witness :
    ∃ resp, listHandler qW [rowDone, rowPend] = .ok resp ∧
      resp.pagination.page = 1 ∧
      resp.pagination.limit = 2 ∧
      resp.data =
        ((sortByCreatedDesc
            ([rowDone, rowPend].filter (rowMatches qW.completed qW.priority qW.search))).drop
          (((1 : Int) - 1) * 2).toNat).take (2 : Int).toNat ∧
      resp.data.length ≤ (2 : Int).toNat ∧
      resp.pagination.total ≤ resp.pagination.totalPages * (2 : Int).toNat ∧
      (∀ m : Nat, resp.pagination.total ≤ m * (2 : Int).toNat →
        resp.pagination.totalPages ≤ m) :=
  C4_amended_pagination.2 qW [rowDone, rowPend] 1 2 rfl rfl (by decide) (by decide)

/-- Pointwise-equal functions map lists equally. -/
theorem listMapExt {α β : Type} (l : List α) (f g : α → β) (h : ∀ a, f a = g a) :
    l.map f = l.map g := by
  induction l with
  | nil => rfl
  | cons x t ih => simp only [List.map_cons, h x, ih]

/-- A map that changes neither keys nor invalidation counters leaves the
invalidation projection unchanged. -/
theorem invProj_map_pres (c : Cache) (g : CEntry → CEntry)
    (hg : ∀ e, (g e).key = e.key ∧ (g e).invalidations = e.invalidations) :
    invProj (c.map g) = invProj c := by
  induction c with
  | nil => rfl
  | cons e t ih =>
    simp only [invProj, List.map_cons] at ih ⊢
    rw [(hg e).1, (hg e).2, ih]

theorem invProj_setQueryDataWith (c : Cache) (k : QueryKey) (g : CacheVal → CacheVal) :
    invProj (setQueryDataWith c k g) = invProj c :=
  invProj_map_pres c _ (fun e => by by_cases h : e.key = k <;> simp [h])

theorem invProj_setQueriesDataWith (c : Cache) (pre : QueryKey) (g : CacheVal → CacheVal) :
    invProj (setQueriesDataWith c pre g) = invProj c :=
  invProj_map_pres c _ (fun e => by cases h : keyMatches pre e.key <;> simp [h])

theorem invProj_setQueriesDataVal (c : Cache) (pre : QueryKey) (v : CacheVal) :
    invProj (setQueriesDataVal c pre v) = invProj c :=
  invProj_map_pres c _ (fun e => by cases h : keyMatches pre e.key <;> simp [h])

theorem containsKey_of_getQueryData {c : Cache} {k : QueryKey} {v : CacheVal}
    (h : getQueryData c k = some v) : containsKey c k = true := by
  unfold getQueryData at h
  unfold containsKey
  cases hf : c.find? (fun e => decide (e.key = k)) with
  | none => rw [hf] at h; simp at h
  | some e =>
    have hmem : e ∈ c := List.mem_of_find?_eq_some hf
    have hpe := List.find?_some hf
    exact List.any_eq_true.mpr ⟨e, hmem, hpe⟩

theorem containsKey_eq_of_invProj {c c' : Cache} (h : invProj c = invProj c')
    (k : QueryKey) : containsKey c k = containsKey c' k := by
  have hk : c.map (fun e => e.key) = c'.map (fun e => e.key) := by
    have h2 := congrArg (List.map Prod.fst) h
    simpa [invProj, List.map_map, Function.comp] using h2
  have h1 : ∀ cc : Cache, containsKey cc k =
      (cc.map (fun e => e.key)).any (fun s => decide (s = k)) := by
    intro cc
    induction cc with
    | nil => rfl
    | cons e t ih =>
      simp only [containsKey, List.map_cons, List.any_cons] at ih ⊢
      rw [ih]
  rw [h1, h1, hk]

theorem invProj_setQueryDataVal_of_contains {c : Cache} {k : QueryKey} (v : CacheVal)
    (h : containsKey c k = true) : invProj (setQueryDataVal c k v) = invProj c := by
  unfold setQueryDataVal
  rw [h]
  simp only [if_true]
  exact invProj_map_pres c _ (fun e => by by_cases he : e.key = k <;> simp [he])

theorem invProj_invalidateQueries (c : Cache) (pre : QueryKey) :
    invProj (invalidateQueries c pre) =
      (invProj c).map (fun s => (s.1, s.2 + if keyMatches pre s.1 then 1 else 0)) := by
  induction c with
  | nil => rfl
  | cons e t ih =>
    simp only [invalidateQueries, invProj, List.map_cons] at ih ⊢
    cases hm : keyMatches pre e.key <;> simp [hm, ih]

/-- No key is simultaneously under the list prefix and the detail prefix. -/
theorem not_lists_and_detail (id : String) (k : QueryKey) :
    ¬(keyMatches todosListsKey k = true ∧ keyMatches (todosDetailKey id) k = true) := by
  rintro ⟨hl, hd⟩
  match k with
  | [] => simp [keyMatches, todosListsKey] at hl
  | [a] => simp [keyMatches, todosListsKey] at hl
  | a :: b :: t =>
    simp [keyMatches, todosListsKey, todosDetailKey] at hl hd
    obtain ⟨-, hb1⟩ := hl
    obtain ⟨-, hb2, -⟩ := hd
    rw [← hb1] at hb2
    simp at hb2

/-- No key is simultaneously under the stats prefix and the list prefix. -/
theorem not_stats_and_lists (k : QueryKey) :
    ¬(keyMatches statsAllKey k = true ∧ keyMatches todosListsKey k = true) := by
  rintro ⟨hs, hl⟩
  match k with
  | [] => simp [keyMatches, statsAllKey] at hs
  | a :: t =>
    simp [keyMatches, statsAllKey, todosListsKey] at hs hl
    obtain ⟨ha, -⟩ := hl
    rw [← hs] at ha
    simp at ha

/-- No key is simultaneously under the stats prefix and the detail prefix. -/
theorem not_stats_and_detail (id : String) (k : QueryKey) :
    ¬(keyMatches statsAllKey k = true ∧ keyMatches (todosDetailKey id) k = true) := by
  rintro ⟨hs, hd⟩
  match k with
  | [] => simp [keyMatches, statsAllKey] at hs
  | a :: t =>
    simp [keyMatches, statsAllKey, todosDetailKey] at hs hd
    obtain ⟨ha, -⟩ := hd
    rw [← hs] at ha
    simp at ha

/-- An update settlement bumps each key by the three invalidations, which
hit pairwise-disjoint key sets, so the total is one exactly on the
affected keys. -/
theorem updBump (id : String) (k : QueryKey) (n : Nat) :
    n + (if keyMatches (todosDetailKey id) k then 1 else 0)
      + (if keyMatches todosListsKey k then 1 else 0)
      + (if keyMatches statsAllKey k then 1 else 0)
    = n + (if affectedUpd id k then 1 else 0) := by
  unfold affectedUpd
  cases hd : keyMatches (todosDetailKey id) k with
  | true =>
    cases hl : keyMatches todosListsKey k with
    | true => exact absurd ⟨hl, hd⟩ (not_lists_and_detail id k)
    | false =>
      cases hs : keyMatches statsAllKey k with
      | true => exact absurd ⟨hs, hd⟩ (not_stats_and_detail id k)
      | false => simp
  | false =>
    cases hl : keyMatches todosListsKey k with
    | true =>
      cases hs : keyMatches statsAllKey k with
      | true => exact absurd ⟨hs, hl⟩ (not_stats_and_lists k)
      | false => simp
    | false =>
      cases hs : keyMatches statsAllKey k <;> simp

/-- Analogue of `updBump` for the two invalidations of a create. -/
theorem createBump (k : QueryKey) (n : Nat) :
    n + (if keyMatches todosListsKey k then 1 else 0)
      + (if keyMatches statsAllKey k then 1 else 0)
    = n + (if affectedCreate k then 1 else 0) := by
  unfold affectedCreate
  cases hl : keyMatches todosListsKey k with
  | true =>
    cases hs : keyMatches statsAllKey k with
    | true => exact absurd ⟨hs, hl⟩ (not_stats_and_lists k)
    | false => simp
  | false =>
    cases hs : keyMatches statsAllKey k <;> simp

theorem invProj_updMutatedCache (c0 : Cache) (id : String) (d : UpdateReq) (now : Nat) :
    invProj (updMutatedCache c0 id d now) = invProj c0 := by
  unfold updMutatedCache
  rw [invProj_setQueriesDataWith, invProj_setQueryDataWith]

theorem invProj_updRolledDetail (c0 : Cache) (id : String) (d : UpdateReq) (now : Nat) :
    invProj (updRolledDetail c0 id d now) = invProj c0 := by
  unfold updRolledDetail
  cases hpt : getQueryData c0 (todosDetailKey id) with
  | none => exact invProj_updMutatedCache c0 id d now
  | some v =>
    have hck : containsKey (updMutatedCache c0 id d now) (todosDetailKey id) = true := by
      rw [containsKey_eq_of_invProj (invProj_updMutatedCache c0 id d now)]
      exact containsKey_of_getQueryData hpt
    rw [invProj_setQueryDataVal_of_contains v hck]
    exact invProj_updMutatedCache c0 id d now

theorem invProj_updSettledCache (c0 : Cache) (id : String) (d : UpdateReq) (now : Nat)
    (outcome : MutOutcome) :
    invProj (updSettledCache c0 id d now outcome) = invProj c0 := by
  cases outcome with
  | success => exact invProj_updMutatedCache c0 id d now
  | failure =>
    unfold updSettledCache
    cases hpts : getQueryData c0 todosListsKey with
    | none => exact invProj_updRolledDetail c0 id d now
    | some v =>
      rw [invProj_setQueriesDataVal]
      exact invProj_updRolledDetail c0 id d now

theorem invProj_createSettledCache (c0 : Cache) (r : CreateReq) (now : Nat)
    (outcome : MutOutcome) :
    invProj (createSettledCache c0 r now outcome) = invProj c0 := by
  cases outcome with
  | success => exact invProj_setQueriesDataWith c0 todosListsKey (createListVal r now)
  | failure =>
    unfold createSettledCache
    cases hpts : getQueryData c0 todosListsKey with
    | none => exact invProj_setQueriesDataWith c0 todosListsKey (createListVal r now)
    | some v =>
      rw [invProj_setQueriesDataVal]
      exact invProj_setQueriesDataWith c0 todosListsKey (createListVal r now)

theorem invProj_toggleMutatedCache (c0 : Cache) (id : String) (now : Nat) :
    invProj (toggleMutatedCache c0 id now) = invProj c0 := by
  unfold toggleMutatedCache
  rw [invProj_setQueriesDataWith, invProj_setQueryDataWith]

theorem invProj_toggleRolledDetail (c0 : Cache) (id : String) (now : Nat) :
    invProj (toggleRolledDetail c0 id now) = invProj c0 := by
  unfold toggleRolledDetail
  cases hpt : getQueryData c0 (todosDetailKey id) with
  | none => exact invProj_toggleMutatedCache c0 id now
  | some v =>
    have hck : containsKey (toggleMutatedCache c0 id now) (todosDetailKey id) = true := by
      rw [containsKey_eq_of_invProj (invProj_toggleMutatedCache c0 id now)]
      exact containsKey_of_getQueryData hpt
    rw [invProj_setQueryDataVal_of_contains v hck]
    exact invProj_toggleMutatedCache c0 id now

theorem invProj_toggleSettledCache (c0 : Cache) (id : String) (now : Nat)
    (outcome : MutOutcome) :
    invProj (toggleSettledCache c0 id now outcome) = invProj c0 := by
  cases outcome with
  | success => exact invProj_toggleMutatedCache c0 id now
  | failure =>
    unfold toggleSettledCache
    cases hpts : getQueryData c0 todosListsKey with
    | none => exact invProj_toggleRolledDetail c0 id now
    | some v =>
      rw [invProj_setQueriesDataVal]
      exact invProj_toggleRolledDetail c0 id now

theorem invProj_deleteSettledCache (c0 : Cache) (id : String) (outcome : MutOutcome) :
    invProj (deleteSettledCache c0 id outcome) = invProj c0 := by
  cases outcome with
  | success => exact invProj_setQueriesDataWith c0 todosListsKey (deleteListVal id)
  | failure =>
    unfold deleteSettledCache
    cases hpts : getQueryData c0 todosListsKey with
    | none => exact invProj_setQueriesDataWith c0 todosListsKey (deleteListVal id)
    | some v =>
      rw [invProj_setQueriesDataVal]
      exact invProj_setQueriesDataWith c0 todosListsKey (deleteListVal id)

/-- C2 amended: every settlement of a create, update, toggle or delete
mutation — on success *and* on failure — invalidates each affected cache
entry exactly once and leaves every other entry's invalidation count
untouched: invalidation is tied to settlement, not to commit.  Update
and toggle settlements affect the detail entry of the id, every list
variant and stats; create and delete settlements affect every list
variant and stats. -/
theorem C2_amended_settle_invalidates_once (c0 : Cache) (id : String) (d : UpdateReq)
    (r : CreateReq) (now : Nat) (outcome : MutOutcome) :
    invProj (runUpdateTodo c0 id d now outcome) =
      (invProj c0).map (fun s => (s.1, s.2 + if affectedUpd id s.1 then 1 else 0)) ∧
    invProj (runToggleTodo c0 id now outcome) =
      (invProj c0).map (fun s => (s.1, s.2 + if affectedUpd id s.1 then 1 else 0)) ∧
    invProj (runCreateTodo c0 r now outcome) =
      (invProj c0).map (fun s => (s.1, s.2 + if affectedCreate s.1 then 1 else 0)) ∧
    invProj (runDeleteTodo c0 id outcome) =
      (invProj c0).map (fun s => (s.1, s.2 + if affectedCreate s.1 then 1 else 0)) := by
  refine ⟨?_, ?_, ?_, ?_⟩
  · unfold runUpdateTodo
    rw [invProj_invalidateQueries, invProj_invalidateQueries, invProj_invalidateQueries,
      invProj_updSettledCache, List.map_map, List.map_map]
    refine listMapExt _ _ _ ?_
    intro s
    simp only [Function.comp]
    exact congrArg (Prod.mk s.1) (updBump id s.1 s.2)
  · unfold runToggleTodo
    rw [invProj_invalidateQueries, invProj_invalidateQueries, invProj_invalidateQueries,
      invProj_toggleSettledCache, List.map_map, List.map_map]
    refine listMapExt _ _ _ ?_
    intro s
    simp only [Function.comp]
    exact congrArg (Prod.mk s.1) (updBump id s.1 s.2)
  · unfold runCreateTodo
    rw [invProj_invalidateQueries, invProj_invalidateQueries,
      invProj_createSettledCache, List.map_map]
    refine listMapExt _ _ _ ?_
    intro s
    simp only [Function.comp]
    exact congrArg (Prod.mk s.1) (createBump s.1 s.2)
  · unfold runDeleteTodo
    rw [invProj_invalidateQueries, invProj_invalidateQueries,
      invProj_deleteSettledCache, List.map_map]
    refine listMapExt _ _ _ ?_
    intro s
    simp only [Function.comp]
    exact congrArg (Prod.mk s.1) (createBump s.1 s.2)
